import Mathlib

/-!
# ReactNativeStockApp server: handlers, self-ping tick and listen port

A shallow embedding of `src/server/controllers/stockController.js`,
`src/server/routes/test.js` and `src/server/server.js`.

* JavaScript values are the inductive type `JSValue`; property reads, truthiness
  and `||` follow the language semantics.
* The Express response object is the record `Response`: `res.status(c)` sets the
  status code, `res.json(v)` appends `v` to the payloads handed to Express.
* The module-level state a handler can reach (the imported `stockData` and the
  two console streams) is the record `Server`; every handler is a function from
  the state before to the state after.
* `stockData` is imported from `../data/stocks.js`, which is not part of the
  sources at hand, so it is a parameter: the own properties of a plain object.
-/

set_option autoImplicit false

namespace StockServer

/-! ## JavaScript values -/

/-- A JavaScript number: a finite value (every finite double is a rational; `+0`
and `-0` are both `finite 0`), `NaN`, or one of the two infinities. -/
inductive JSNumber where
  | finite (q : Rat)
  | nan
  | posInf
  | negInf
  deriving DecidableEq

/-- JavaScript values. An object is the association list of its own properties
(the first entry for a key is the property); its prototype is `Object.prototype`.
Properties are data properties: reading one runs no code. Functions are opaque. -/
inductive JSValue where
  | undefined
  | null
  | bool (b : Bool)
  | number (n : JSNumber)
  | bigint (n : Int)
  | string (s : String)
  | symbol (description : String)
  | function (name : String)
  | object (props : List (String × JSValue))

/-- Numeric literal such as `404` or `3000`. -/
def JSValue.int (n : Int) : JSValue := .number (.finite n)

/-- The abstract operation `ToBoolean`: the falsy values are `undefined`, `null`,
`false`, `±0`, `NaN`, `0n` and the empty string. -/
def JSValue.truthy : JSValue → Bool
  | .undefined => false
  | .null => false
  | .bool b => b
  | .number (.finite q) => decide (q ≠ 0)
  | .number .nan => false
  | .number _ => true
  | .bigint n => decide (n ≠ 0)
  | .string s => decide (s ≠ "")
  | .symbol _ => true
  | .function _ => true
  | .object _ => true

/-- The operator `a || b`: `a` when `a` is truthy, otherwise `b`. -/
def JSValue.or (a b : JSValue) : JSValue := if a.truthy then a else b

/-- A value that is an object (a record with fields). -/
def JSValue.isObject : JSValue → Bool
  | .object _ => true
  | _ => false

/-- The function-valued properties of `Object.prototype`. -/
def objectPrototypeMethods : List String :=
  ["constructor", "__defineGetter__", "__defineSetter__", "hasOwnProperty",
   "__lookupGetter__", "__lookupSetter__", "isPrototypeOf", "propertyIsEnumerable",
   "toString", "valueOf", "toLocaleString"]

/-- The object `Object.prototype` as a value. -/
def objectPrototype : JSValue :=
  .object (objectPrototypeMethods.map fun n => (n, JSValue.function n))

/-- Every property name reachable on `Object.prototype`: its methods and the
accessor `__proto__`. -/
def objectPrototypeNames : List String := objectPrototypeMethods ++ ["__proto__"]

/-- A property read that reaches `Object.prototype`: one of its methods, the
accessor `__proto__` (which yields the prototype of a plain object), or
`undefined` at the end of the chain. -/
def inheritedGet (key : String) : JSValue :=
  if key ∈ objectPrototypeMethods then .function key
  else if key = "__proto__" then objectPrototype
  else .undefined

/-- The `TypeError` the engine throws when the property `key` is read off
`undefined` or `null` (`base` is the word for the value read from). Its own
property is the `message`, worded as the engine words it; `name` lives on
`TypeError.prototype` and is not an own property. -/
def typeError (base key : String) : JSValue :=
  .object [("message",
    .string ("Cannot read properties of " ++ base ++ " (reading \x27" ++ key ++ "\x27)"))]

/-- The property read `v[key]` (also written `v.key`): throws a `TypeError` on
`undefined` and `null`; on an object the own property, else the inherited one.
On a primitive or a function only the part of the chain shared with every value,
`Object.prototype`, is represented: the properties of `String.prototype` and the
other wrapper prototypes are left out, none of which is named `data` or
`message`, the two names this program reads off a value of unknown kind. -/
def JSValue.get (v : JSValue) (key : String) : Except JSValue JSValue :=
  match v with
  | .undefined => .error (typeError "undefined" key)
  | .null => .error (typeError "null" key)
  | .object props =>
    match props.lookup key with
    | some x => .ok x
    | none => .ok (inheritedGet key)
  | _ => .ok (inheritedGet key)

/-! ## `String.prototype.toUpperCase` -/

/-- Is the character one of the ASCII letters `a`–`z`? -/
def isLowerAscii (c : Char) : Bool := decide (97 ≤ c.toNat ∧ c.toNat ≤ 122)

/-- The upper-casing table of the engine outside ASCII (`UnicodeData` and
`SpecialCasing`: one character may map to several, as `ß` to `SS`). The table is
not part of the program; what is used of it is that no entry produces one of the
letters `a`–`z`. -/
structure UnicodeUpper where
  ext : Char → List Char
  ext_noLower : ∀ c x, x ∈ ext c → isLowerAscii x = false

/-- The table that leaves every character outside ASCII unchanged. -/
def asciiOnly : UnicodeUpper where
  ext := fun c => if c.toNat < 128 then [] else [c]
  ext_noLower := by
    intro c x hx
    by_cases h : c.toNat < 128
    · simp [h] at hx
    · simp only [h, if_false, List.mem_singleton] at hx
      subst hx
      simp only [isLowerAscii, decide_eq_false_iff_not]
      omega

/-- Upper-casing of one character: `a`–`z` become `A`–`Z`, the rest of ASCII is
unchanged, any other character goes through the table. -/
def upperChar (U : UnicodeUpper) (c : Char) : List Char :=
  if c.toNat < 128 then [c.toUpper] else U.ext c

/-- The method `s.toUpperCase()`. -/
def toUpperCase (U : UnicodeUpper) (s : String) : String :=
  String.mk (s.data.flatMap (upperChar U))

/-! ## Requests, responses and the module state -/

/-- An Express request: the route parameters (decoded path segments, always
strings) and whatever else the client sent. -/
structure Request where
  params : List (String × String)
  body : JSValue

/-- An Express response under construction: the status code and the payloads
handed to `res.json`, oldest first. -/
structure Response where
  statusCode : Nat
  sent : List JSValue

/-- The response object Express passes to a handler: status 200, nothing sent. -/
def Response.fresh : Response := ⟨200, []⟩

/-- The call `res.status(code)`. -/
def Response.status (res : Response) (code : Nat) : Response :=
  { res with statusCode := code }

/-- The call `res.json(v)`. -/
def Response.json (res : Response) (v : JSValue) : Response :=
  { res with sent := res.sent ++ [v] }

/-- The state reachable from the handlers and the timer callback: the imported
`stockData` (own properties of a plain object), the arguments of every
`console.log` and `console.error` call, and the URLs of the outbound GETs. -/
structure Server where
  stockData : List (String × JSValue)
  stdout : List (List JSValue)
  stderr : List (List JSValue)
  outbound : List String

/-- The call `console.log(...args)`. -/
def Server.log (σ : Server) (args : List JSValue) : Server :=
  { σ with stdout := σ.stdout ++ [args] }

/-- The call `console.error(...args)`. -/
def Server.logError (σ : Server) (args : List JSValue) : Server :=
  { σ with stderr := σ.stderr ++ [args] }

/-! ## `controllers/stockController.js` -/

/-- The body of the 404 answer, `{ message: "Stock not found" }`. -/
def notFoundBody : JSValue := .object [("message", .string "Stock not found")]

/-- The handler `getAllStocks`. -/
def getAllStocks (σ : Server) (_req : Request) (res : Response) : Server × Response :=
  (σ, res.json (.object σ.stockData))

/-- The handler `getStockBySymbol`. Reading `toUpperCase` off a missing route
parameter throws; otherwise the value found under the upper-cased symbol decides
between the two answers. -/
def getStockBySymbol (U : UnicodeUpper) (σ : Server) (req : Request) (res : Response) :
    Except JSValue (Server × Response) :=
  match req.params.lookup "symbol" with
  | none => .error (typeError "undefined" "toUpperCase")
  | some s =>
    let symbol := toUpperCase U s
    match (JSValue.object σ.stockData).get symbol with
    | .error e => .error e
    | .ok stock =>
      if stock.truthy then
        .ok (σ, res.json stock)
      else
        .ok (σ, (res.status 404).json notFoundBody)

/-! ## `routes/test.js` -/

/-- The body of the health-check answer, `{ message: "Test API hit" }`. -/
def testBody : JSValue := .object [("message", .string "Test API hit")]

/-- The handler registered for `GET /` on the test router. -/
def testHandler (σ : Server) (_req : Request) (res : Response) : Server × Response :=
  (σ.log [.string "📥 /api/test was called"], res.json testBody)

/-! ## Sequences of handler calls -/

/-- One call of a handler, with the request it receives. -/
inductive Call where
  | allStocks (req : Request)
  | stockBySymbol (req : Request)
  | test (req : Request)

/-- The state after one handler call on a fresh response object. A handler that
throws has written nothing before the throw. -/
def step (U : UnicodeUpper) (σ : Server) : Call → Server
  | .allStocks req => (getAllStocks σ req Response.fresh).1
  | .stockBySymbol req =>
    match getStockBySymbol U σ req Response.fresh with
    | .ok r => r.1
    | .error _ => σ
  | .test req => (testHandler σ req Response.fresh).1

/-- The state after a sequence of handler calls. -/
def run (U : UnicodeUpper) (σ : Server) (calls : List Call) : Server :=
  calls.foldl (step U) σ

/-! ## `server.js` -/

/-- The state of a settled promise. -/
inductive Settled where
  | fulfilled (value : JSValue)
  | rejected (reason : JSValue)

/-- The address of the self-ping. -/
def selfPingUrl : String := "https://reactnativestockapp.onrender.com/api/test"

/-- The `try` block of the timer callback, after the GET has been issued from
state `σ` and has settled as `outcome`: a rejection is thrown by `await`, and
so is a failing read of `res.data`. -/
def selfPingTry (outcome : Settled) (σ : Server) : Except JSValue Server :=
  match outcome with
  | .rejected err => .error err
  | .fulfilled res =>
    match res.get "data" with
    | .error e => .error e
    | .ok data => .ok (σ.log [.string "✅ Internal /api/test call response:", data])

/-- The `async` callback given to `setInterval`: the state after the tick and
the settlement of the promise the callback returns. An exception raised inside
the `catch` block rejects that promise. -/
def selfPingTick (outcome : Settled) (σ : Server) : Server × Settled :=
  let σ1 := { σ with outbound := σ.outbound ++ [selfPingUrl] }
  match selfPingTry outcome σ1 with
  | .ok σ2 => (σ2, .fulfilled .undefined)
  | .error err =>
    match err.get "message" with
    | .ok msg => (σ1.logError [.string "❌ Error calling /api/test:", msg], .fulfilled .undefined)
    | .error e => (σ1, .rejected e)

/-- The read `process.env.PORT`: the variable when it is set, else `undefined`. -/
def envPORT (env : List (String × String)) : JSValue :=
  match env.lookup "PORT" with
  | some v => .string v
  | none => .undefined

/-- The constant `PORT = process.env.PORT || 3000`, the first argument of
`app.listen`. -/
def PORT (env : List (String × String)) : JSValue :=
  (envPORT env).or (.int 3000)

/-! ## The data model of the specification -/

/-- A symbol is an upper-case string: upper-casing leaves it as it is. -/
def isSymbol (U : UnicodeUpper) (k : String) : Bool := toUpperCase U k == k

/-- A value that is `undefined` or `null`. -/
def JSValue.isNullish : JSValue → Bool
  | .undefined => true
  | .null => true
  | _ => false

/-- A state with an empty data set and nothing logged. -/
def Server.empty : Server := ⟨[], [], [], []⟩

/-- The data set of the scenario in the specification,
`{"AAPL": {"symbol":"AAPL","price":150}}`. -/
def aaplRecord : JSValue := .object [("symbol", .string "AAPL"), ("price", .int 150)]

/-- The state holding only the `AAPL` record. -/
def aaplServer : Server := ⟨[("AAPL", aaplRecord)], [], [], []⟩

/-- The request `GET /api/stocks/:symbol` for the path segment `s`. -/
def symbolRequest (s : String) : Request := ⟨[("symbol", s)], .undefined⟩

/-! ## Lemmas on upper-casing and on property reads -/

theorem toUpper_noLower (c : Char) : isLowerAscii c.toUpper = false := by
  unfold Char.toUpper
  simp only []
  split
  · rename_i h
    obtain ⟨h1, h2⟩ := h
    generalize c.toNat = n at h1 h2
    interval_cases n <;> decide
  · rename_i h
    simpa [isLowerAscii] using h

theorem upperChar_noLower (U : UnicodeUpper) (c x : Char) (hx : x ∈ upperChar U c) :
    isLowerAscii x = false := by
  unfold upperChar at hx
  split at hx
  · rw [List.mem_singleton] at hx
    rw [hx]
    exact toUpper_noLower c
  · exact U.ext_noLower c x hx

/-- No character of an upper-cased string is one of `a`–`z`. -/
theorem toUpperCase_noLower (U : UnicodeUpper) (s : String) :
    (toUpperCase U s).data.any isLowerAscii = false := by
  rw [List.any_eq_false]
  intro x hx
  simp only [toUpperCase, List.mem_flatMap] at hx
  obtain ⟨c, _, hc⟩ := hx
  simp [upperChar_noLower U c x hc]

/-- Every property name of `Object.prototype` has one of the letters `a`–`z`. -/
theorem objectPrototypeNames_lower :
    ∀ n ∈ objectPrototypeNames, n.data.any isLowerAscii = true := by
  decide

theorem toUpperCase_not_inherited (U : UnicodeUpper) (s : String) :
    toUpperCase U s ∉ objectPrototypeNames := by
  intro hmem
  have h1 := objectPrototypeNames_lower _ hmem
  rw [toUpperCase_noLower] at h1
  exact Bool.false_ne_true h1

/-- A read of an upper-cased key that reaches `Object.prototype` finds nothing. -/
theorem inheritedGet_toUpperCase (U : UnicodeUpper) (s : String) :
    inheritedGet (toUpperCase U s) = .undefined := by
  have h := toUpperCase_not_inherited U s
  simp only [objectPrototypeNames, List.mem_append, List.mem_singleton, not_or] at h
  simp [inheritedGet, h.1, h.2]

/-- The value `stockData[symbol]` for an upper-cased symbol: the own property,
or `undefined`. -/
theorem get_toUpperCase (U : UnicodeUpper) (ds : List (String × JSValue)) (s : String) :
    (JSValue.object ds).get (toUpperCase U s)
      = .ok ((ds.lookup (toUpperCase U s)).getD .undefined) := by
  unfold JSValue.get
  cases h : ds.lookup (toUpperCase U s) with
  | none => simp [h, inheritedGet_toUpperCase]
  | some v => simp [h]

/-- The handler `getStockBySymbol` in closed form when the route parameter is
present. -/
theorem getStockBySymbol_eq (U : UnicodeUpper) (σ : Server) (req : Request) (res : Response)
    (s : String) (hreq : req.params.lookup "symbol" = some s) :
    getStockBySymbol U σ req res
      = .ok (σ, if ((σ.stockData.lookup (toUpperCase U s)).getD .undefined).truthy then
                  res.json ((σ.stockData.lookup (toUpperCase U s)).getD .undefined)
                else (res.status 404).json notFoundBody) := by
  unfold getStockBySymbol
  simp only [hreq, get_toUpperCase]
  split <;> rfl

theorem step_stockData (U : UnicodeUpper) (σ : Server) (c : Call) :
    (step U σ c).stockData = σ.stockData := by
  cases c with
  | allStocks req => rfl
  | test req => rfl
  | stockBySymbol req =>
    unfold step
    cases hreq : req.params.lookup "symbol" with
    | none => simp [getStockBySymbol, hreq]
    | some s => simp [getStockBySymbol_eq U σ req _ s hreq]

theorem object_truthy (v : JSValue) (h : v.isObject = true) : v.truthy = true := by
  cases v <;> simp_all [JSValue.isObject, JSValue.truthy]

theorem nullish_get (v : JSValue) (key : String) (h : v.isNullish = false) :
    ∃ x, v.get key = .ok x := by
  cases v <;> simp_all [JSValue.isNullish, JSValue.get]
  rename_i props
  cases props.lookup key <;> simp

/-- What a failing property read throws is an error object with a `message`. -/
theorem get_error_message (v e : JSValue) (key : String) (h : v.get key = .error e) :
    ∃ msg, e.get "message" = .ok msg := by
  cases v with
  | undefined =>
    simp only [JSValue.get, Except.error.injEq] at h
    exact ⟨_, by rw [← h]; rfl⟩
  | null =>
    simp only [JSValue.get, Except.error.injEq] at h
    exact ⟨_, by rw [← h]; rfl⟩
  | object props =>
    simp only [JSValue.get] at h
    cases hl : props.lookup key <;> simp [hl] at h
  | bool b => simp [JSValue.get] at h
  | number n => simp [JSValue.get] at h
  | bigint n => simp [JSValue.get] at h
  | string x => simp [JSValue.get] at h
  | symbol d => simp [JSValue.get] at h
  | function n => simp [JSValue.get] at h

/-- The tick when the GET is fulfilled and the read of `res.data` throws `e`,
whose `message` can be read. -/
theorem selfPingTick_fulfilled_throw (res e msg : JSValue) (σ : Server)
    (h : res.get "data" = .error e) (hmsg : e.get "message" = .ok msg) :
    selfPingTick (.fulfilled res) σ
      = (Server.logError { σ with outbound := σ.outbound ++ [selfPingUrl] }
          [.string "❌ Error calling /api/test:", msg], .fulfilled .undefined) := by
  simp only [selfPingTick, selfPingTry, h, hmsg]

/-- The tick when the GET is fulfilled and `res.data` can be read. -/
theorem selfPingTick_fulfilled (res data : JSValue) (σ : Server)
    (h : res.get "data" = .ok data) :
    selfPingTick (.fulfilled res) σ
      = (Server.log { σ with outbound := σ.outbound ++ [selfPingUrl] }
          [.string "✅ Internal /api/test call response:", data], .fulfilled .undefined) := by
  simp only [selfPingTick, selfPingTry, h]

/-- The tick when the GET is rejected and `err.message` can be read. -/
theorem selfPingTick_rejected (err msg : JSValue) (σ : Server)
    (h : err.get "message" = .ok msg) :
    selfPingTick (.rejected err) σ
      = (Server.logError { σ with outbound := σ.outbound ++ [selfPingUrl] }
          [.string "❌ Error calling /api/test:", msg], .fulfilled .undefined) := by
  simp only [selfPingTick, selfPingTry, h]

/-! ## The stock handlers -/

/-- C1: for every data set and every symbol `S` (an upper-case string) that is a
key of it with a stock record (an object) stored under it, `getStockBySymbol`
called with `req.params.symbol = S` answers with status 200 and exactly the
stored record as body. -/
theorem getStockBySymbol_known (U : UnicodeUpper) (σ : Server) (req : Request)
    (S : String) (record : JSValue)
    (hS : isSymbol U S = true)
    (hreq : req.params.lookup "symbol" = some S)
    (hkey : σ.stockData.lookup S = some record)
    (hrec : record.isObject = true) :
    getStockBySymbol U σ req Response.fresh = .ok (σ, ⟨200, [record]⟩) := by
  have hup : toUpperCase U S = S := by simpa [isSymbol] using hS
  rw [getStockBySymbol_eq U σ req _ S hreq, hup, hkey]
  simp [object_truthy record hrec, Response.json, Response.fresh]

theorem getStockBySymbol_known_witness :
    isSymbol asciiOnly "AAPL" = true ∧
    (symbolRequest "AAPL").params.lookup "symbol" = some "AAPL" ∧
    aaplServer.stockData.lookup "AAPL" = some aaplRecord ∧
    aaplRecord.isObject = true ∧
    getStockBySymbol asciiOnly aaplServer (symbolRequest "AAPL") Response.fresh
      = .ok (aaplServer, ⟨200, [aaplRecord]⟩) :=
  ⟨by decide, rfl, rfl, rfl,
   getStockBySymbol_known asciiOnly aaplServer (symbolRequest "AAPL") "AAPL" aaplRecord
     (by decide) rfl rfl rfl⟩

/-- C2: for every data set and every request string whose upper-cased form is
not a key of the data set, `getStockBySymbol` answers with status 404 and the
body `{"message":"Stock not found"}`. -/
theorem getStockBySymbol_unknown (U : UnicodeUpper) (σ : Server) (req : Request) (s : String)
    (hreq : req.params.lookup "symbol" = some s)
    (habsent : σ.stockData.lookup (toUpperCase U s) = none) :
    getStockBySymbol U σ req Response.fresh
      = .ok (σ, ⟨404, [.object [("message", .string "Stock not found")]]⟩) := by
  rw [getStockBySymbol_eq U σ req _ s hreq, habsent]
  simp [JSValue.truthy, Response.json, Response.status, Response.fresh, notFoundBody]

theorem getStockBySymbol_unknown_witness :
    (symbolRequest "ZZZZ").params.lookup "symbol" = some "ZZZZ" ∧
    aaplServer.stockData.lookup (toUpperCase asciiOnly "ZZZZ") = none ∧
    getStockBySymbol asciiOnly aaplServer (symbolRequest "ZZZZ") Response.fresh
      = .ok (aaplServer, ⟨404, [.object [("message", .string "Stock not found")]]⟩) :=
  ⟨rfl, rfl, getStockBySymbol_unknown asciiOnly aaplServer (symbolRequest "ZZZZ") "ZZZZ" rfl rfl⟩

/-- C3: `getStockBySymbol` depends on the requested symbol only through its
upper-cased form: two requests whose symbols upper-case to the same string get
the same outcome, status and body alike. -/
theorem getStockBySymbol_case_insensitive (U : UnicodeUpper) (σ : Server)
    (req₁ req₂ : Request) (s t : String)
    (hs : req₁.params.lookup "symbol" = some s)
    (ht : req₂.params.lookup "symbol" = some t)
    (hcase : toUpperCase U s = toUpperCase U t) :
    getStockBySymbol U σ req₁ Response.fresh = getStockBySymbol U σ req₂ Response.fresh := by
  rw [getStockBySymbol_eq U σ req₁ _ s hs, getStockBySymbol_eq U σ req₂ _ t ht, hcase]

theorem getStockBySymbol_case_insensitive_witness :
    (symbolRequest "AAPL").params.lookup "symbol" = some "AAPL" ∧
    (symbolRequest "aapl").params.lookup "symbol" = some "aapl" ∧
    toUpperCase asciiOnly "AAPL" = toUpperCase asciiOnly "aapl" ∧
    getStockBySymbol asciiOnly aaplServer (symbolRequest "aapl") Response.fresh
      = .ok (aaplServer, ⟨200, [aaplRecord]⟩) ∧
    getStockBySymbol asciiOnly aaplServer (symbolRequest "AAPL") Response.fresh
      = getStockBySymbol asciiOnly aaplServer (symbolRequest "aapl") Response.fresh :=
  ⟨rfl, rfl, by decide, rfl,
   getStockBySymbol_case_insensitive asciiOnly aaplServer (symbolRequest "AAPL")
     (symbolRequest "aapl") "AAPL" "aapl" rfl rfl (by decide)⟩

/-- C4: `getAllStocks` always succeeds with status 200 and the whole data set as
body: the own properties of the body are exactly those of the data set, each key
with its stored record, and the request has no influence on the result. -/
theorem getAllStocks_whole_dataset (σ : Server) (req req' : Request) :
    getAllStocks σ req Response.fresh = (σ, ⟨200, [.object σ.stockData]⟩) ∧
    (∀ body, (getAllStocks σ req Response.fresh).2.sent = [.object body] →
      ∀ k, body.lookup k = σ.stockData.lookup k) ∧
    getAllStocks σ req' Response.fresh = getAllStocks σ req Response.fresh := by
  refine ⟨rfl, ?_, rfl⟩
  intro body hbody k
  simp only [getAllStocks, Response.json, Response.fresh, List.nil_append, List.cons.injEq,
    JSValue.object.injEq, and_true] at hbody
  rw [hbody]

theorem getAllStocks_whole_dataset_witness :
    (getAllStocks aaplServer (symbolRequest "x") Response.fresh).2.sent
      = [.object [("AAPL", aaplRecord)]] ∧
    ([("AAPL", aaplRecord)] : List (String × JSValue)).lookup "AAPL"
      = aaplServer.stockData.lookup "AAPL" :=
  ⟨rfl,
   (getAllStocks_whole_dataset aaplServer (symbolRequest "x") (symbolRequest "y")).2.1
     [("AAPL", aaplRecord)] rfl "AAPL"⟩

/-- C5: the health-check handler answers with status 200 and the body
`{"message":"Test API hit"}` for every request, in every state and after every
sequence of earlier handler calls; the response is the same whatever the request
and the state are. -/
theorem testHandler_constant (U : UnicodeUpper) (σ σ' : Server) (calls : List Call)
    (req req' : Request) :
    (testHandler σ req Response.fresh).2
      = ⟨200, [.object [("message", .string "Test API hit")]]⟩ ∧
    (testHandler (run U σ calls) req Response.fresh).2
      = ⟨200, [.object [("message", .string "Test API hit")]]⟩ ∧
    (testHandler σ' req' Response.fresh).2 = (testHandler σ req Response.fresh).2 :=
  ⟨rfl, rfl, rfl⟩

/-- C6: request handling never changes the data set: after every finite sequence
of calls to `getAllStocks`, `getStockBySymbol` and the health-check handler the
data set is the one before the sequence. -/
theorem run_stockData (U : UnicodeUpper) (σ : Server) (calls : List Call) :
    (run U σ calls).stockData = σ.stockData := by
  induction calls generalizing σ with
  | nil => rfl
  | cons c cs ih =>
    show (run U (step U σ c) cs).stockData = σ.stockData
    rw [ih, step_stockData]

/-! ## The self-ping tick -/

/-- The response object axios fulfils the self-ping with when the health check
answers. -/
def pingResponse : JSValue :=
  .object [("status", .int 200), ("data", .object [("message", .string "Test API hit")])]

/-- The error object axios rejects with when the host cannot be reached. -/
def networkError : JSValue :=
  .object [("message", .string "Network Error"), ("name", .string "AxiosError"),
           ("code", .string "ERR_NETWORK")]

/-- C7: a self-ping tick never propagates a failure. Whatever response the GET is
fulfilled with, and whatever value it is rejected with among those a rejection of
`axios.get` carries (an error object; all that is used is that the value is
neither `null` nor `undefined`), the promise of the timer callback resolves, the
tick has issued exactly one GET and the data set is untouched. On success the
tick logs `res.data` with `console.log` (and when reading `res.data` throws, that
error is contained and its message logged with `console.error`); on failure it
logs `err.message` with `console.error`. -/
theorem selfPingTick_contained (σ : Server) :
    (∀ res : JSValue,
      (selfPingTick (.fulfilled res) σ).2 = .fulfilled .undefined ∧
      (selfPingTick (.fulfilled res) σ).1.outbound = σ.outbound ++ [selfPingUrl] ∧
      (selfPingTick (.fulfilled res) σ).1.stockData = σ.stockData ∧
      (res.isNullish = false → ∃ data, res.get "data" = .ok data) ∧
      (∀ data, res.get "data" = .ok data →
        (selfPingTick (.fulfilled res) σ).1.stdout
          = σ.stdout ++ [[.string "✅ Internal /api/test call response:", data]] ∧
        (selfPingTick (.fulfilled res) σ).1.stderr = σ.stderr) ∧
      (∀ e, res.get "data" = .error e →
        ∃ msg, e.get "message" = .ok msg ∧
          (selfPingTick (.fulfilled res) σ).1.stderr
            = σ.stderr ++ [[.string "❌ Error calling /api/test:", msg]] ∧
          (selfPingTick (.fulfilled res) σ).1.stdout = σ.stdout)) ∧
    (∀ err : JSValue, err.isNullish = false →
      (selfPingTick (.rejected err) σ).2 = .fulfilled .undefined ∧
      (selfPingTick (.rejected err) σ).1.outbound = σ.outbound ++ [selfPingUrl] ∧
      (selfPingTick (.rejected err) σ).1.stockData = σ.stockData ∧
      ∃ msg, err.get "message" = .ok msg ∧
        (selfPingTick (.rejected err) σ).1.stderr
          = σ.stderr ++ [[.string "❌ Error calling /api/test:", msg]] ∧
        (selfPingTick (.rejected err) σ).1.stdout = σ.stdout) := by
  constructor
  · intro res
    cases hget : res.get "data" with
    | ok data =>
      rw [selfPingTick_fulfilled res data σ hget]
      refine ⟨rfl, rfl, rfl, fun _ => ⟨data, rfl⟩, ?_, ?_⟩
      · intro data' h
        cases h
        exact ⟨rfl, rfl⟩
      · intro e h
        cases h
    | error e =>
      obtain ⟨msg, hmsg⟩ := get_error_message res e "data" hget
      rw [selfPingTick_fulfilled_throw res e msg σ hget hmsg]
      refine ⟨rfl, rfl, rfl, ?_, ?_, ?_⟩
      · intro hres
        obtain ⟨data, hdata⟩ := nullish_get res "data" hres
        rw [hdata] at hget
        cases hget
      · intro data h
        cases h
      · intro e' h
        cases h
        exact ⟨msg, hmsg, rfl, rfl⟩
  · intro err herr
    obtain ⟨msg, hmsg⟩ := nullish_get err "message" herr
    rw [selfPingTick_rejected err msg σ hmsg]
    exact ⟨rfl, rfl, rfl, msg, hmsg, rfl, rfl⟩

theorem selfPingTick_contained_witness :
    networkError.isNullish = false ∧
    pingResponse.get "data" = .ok (.object [("message", .string "Test API hit")]) ∧
    (selfPingTick (.rejected networkError) aaplServer).2 = .fulfilled .undefined ∧
    (selfPingTick (.rejected networkError) aaplServer).1.outbound = [selfPingUrl] ∧
    (selfPingTick (.fulfilled pingResponse) aaplServer).1.stdout
      = [[.string "✅ Internal /api/test call response:",
          .object [("message", .string "Test API hit")]]] ∧
    (selfPingTick (.fulfilled pingResponse) aaplServer).1.stderr = [] :=
  ⟨rfl, rfl,
   ((selfPingTick_contained aaplServer).2 networkError rfl).1,
   ((selfPingTick_contained aaplServer).2 networkError rfl).2.1,
   ((selfPingTick_contained aaplServer).1 pingResponse).2.2.2.2.1 _ rfl⟩

/-- The edge of C7, outside what a rejection of `axios.get` carries: were the GET
rejected with `null`, the read of `err.message` in the `catch` block would throw
and the promise of the timer callback would be rejected with that `TypeError`. -/
theorem selfPingTick_null_reason :
    (selfPingTick (.rejected .null) Server.empty).2
      = .rejected (typeError "null" "message") ∧
    (selfPingTick (.rejected .null) Server.empty).1.stderr = [] :=
  ⟨rfl, rfl⟩

/-! ## The listen port -/

/-- C8 fails as stated: with `PORT` set to the empty string the server does not
listen on the value of `PORT` but on 3000. -/
theorem PORT_empty_string :
    ([("PORT", "")] : List (String × String)).lookup "PORT" = some "" ∧
    PORT [("PORT", "")] = .int 3000 ∧
    PORT [("PORT", "")] ≠ .string "" := by
  refine ⟨rfl, rfl, ?_⟩
  intro h
  have h' : JSValue.int 3000 = .string "" := h
  simp [JSValue.int] at h'

/-- C8 as amended: the server listens on 3000 when `PORT` is unset or set to the
empty string, and on the value of `PORT` when it is set to a non-empty string. -/
theorem PORT_default (env : List (String × String)) :
    (env.lookup "PORT" = none → PORT env = .int 3000) ∧
    (env.lookup "PORT" = some "" → PORT env = .int 3000) ∧
    (∀ v, env.lookup "PORT" = some v → v ≠ "" → PORT env = .string v) := by
  refine ⟨?_, ?_, ?_⟩
  · intro h
    simp [PORT, envPORT, h, JSValue.or, JSValue.truthy]
  · intro h
    simp [PORT, envPORT, h, JSValue.or, JSValue.truthy]
  · intro v h hv
    simp [PORT, envPORT, h, JSValue.or, JSValue.truthy, hv]

theorem PORT_default_witness :
    ([("PORT", "8080")] : List (String × String)).lookup "PORT" = some "8080" ∧
    "8080" ≠ "" ∧
    PORT [("PORT", "8080")] = .string "8080" ∧
    PORT [] = .int 3000 :=
  ⟨rfl, by decide,
   (PORT_default [("PORT", "8080")]).2.2 "8080" rfl (by decide),
   (PORT_default []).1 rfl⟩

/-! ## Truthiness and inherited properties in `getStockBySymbol` -/

/-- C9: for every data set and every request whose `params.symbol` is a string,
`getStockBySymbol` returns without throwing, leaves the state alone and sends
exactly one response, decided by the truthiness of the value found under the
upper-cased symbol (`undefined` when the key is absent): status 200 with that
value as body if and only if it is truthy, else status 404 with
`{"message":"Stock not found"}`. -/
theorem getStockBySymbol_truthiness (U : UnicodeUpper) (σ : Server) (req : Request)
    (s : String) (hreq : req.params.lookup "symbol" = some s) :
    ∃ (value : JSValue) (r : Response),
      value = (σ.stockData.lookup (toUpperCase U s)).getD .undefined ∧
      (JSValue.object σ.stockData).get (toUpperCase U s) = .ok value ∧
      getStockBySymbol U σ req Response.fresh = .ok (σ, r) ∧
      r.sent.length = 1 ∧
      (r.statusCode = 200 ↔ value.truthy = true) ∧
      (value.truthy = true → r = ⟨200, [value]⟩) ∧
      (value.truthy = false →
        r = ⟨404, [.object [("message", .string "Stock not found")]]⟩) := by
  refine ⟨_, _, rfl, get_toUpperCase U σ.stockData s, getStockBySymbol_eq U σ req _ s hreq, ?_⟩
  cases h : ((σ.stockData.lookup (toUpperCase U s)).getD .undefined).truthy <;>
    simp [Response.json, Response.status, Response.fresh, notFoundBody]

theorem getStockBySymbol_truthiness_witness :
    (symbolRequest "nil").params.lookup "symbol" = some "nil" ∧
    ∃ (value : JSValue) (r : Response),
      value = ((⟨[("NIL", .null)], [], [], []⟩ : Server).stockData.lookup
        (toUpperCase asciiOnly "nil")).getD .undefined ∧
      (JSValue.object (⟨[("NIL", .null)], [], [], []⟩ : Server).stockData).get
        (toUpperCase asciiOnly "nil") = .ok value ∧
      getStockBySymbol asciiOnly ⟨[("NIL", .null)], [], [], []⟩ (symbolRequest "nil")
        Response.fresh = .ok (⟨[("NIL", .null)], [], [], []⟩, r) ∧
      r.sent.length = 1 ∧
      (r.statusCode = 200 ↔ value.truthy = true) ∧
      (value.truthy = true → r = ⟨200, [value]⟩) ∧
      (value.truthy = false →
        r = ⟨404, [.object [("message", .string "Stock not found")]]⟩) :=
  ⟨rfl, getStockBySymbol_truthiness asciiOnly ⟨[("NIL", .null)], [], [], []⟩
    (symbolRequest "nil") "nil" rfl⟩

/-- C10: the upper-cased form of a request string is never a property name of
`Object.prototype`, each of which has a lower-case letter; so the read
`stockData[symbol]` never finds an inherited property, and a 200 answer of
`getStockBySymbol` always carries an own property of the data set. -/
theorem getStockBySymbol_own_property (U : UnicodeUpper) :
    (∀ n ∈ objectPrototypeNames, ∃ c ∈ n.data, isLowerAscii c = true) ∧
    (∀ s, toUpperCase U s ∉ objectPrototypeNames) ∧
    (∀ s, inheritedGet (toUpperCase U s) = .undefined) ∧
    (∀ σ req out, getStockBySymbol U σ req Response.fresh = .ok out →
      out.2.statusCode = 200 →
      ∃ s v, req.params.lookup "symbol" = some s ∧
        σ.stockData.lookup (toUpperCase U s) = some v ∧ out.2.sent = [v]) := by
  refine ⟨?_, toUpperCase_not_inherited U, inheritedGet_toUpperCase U, ?_⟩
  · intro n hn
    simpa [List.any_eq_true] using objectPrototypeNames_lower n hn
  · intro σ req out hout hstatus
    cases hreq : req.params.lookup "symbol" with
    | none => simp [getStockBySymbol, hreq] at hout
    | some s =>
      rw [getStockBySymbol_eq U σ req _ s hreq] at hout
      cases hlook : σ.stockData.lookup (toUpperCase U s) with
      | none =>
        simp only [hlook, Option.getD_none, JSValue.truthy, Bool.false_eq_true, if_false,
          Except.ok.injEq] at hout
        rw [← hout] at hstatus
        simp [Response.json, Response.status] at hstatus
      | some v =>
        refine ⟨s, v, rfl, hlook, ?_⟩
        simp only [hlook, Option.getD_some, Except.ok.injEq] at hout
        cases hv : v.truthy
        · rw [hv] at hout
          rw [← hout] at hstatus
          simp [Response.json, Response.status] at hstatus
        · rw [hv] at hout
          rw [← hout]
          simp [Response.json, Response.fresh]

theorem getStockBySymbol_own_property_witness :
    getStockBySymbol asciiOnly aaplServer (symbolRequest "aapl") Response.fresh
      = .ok (aaplServer, ⟨200, [aaplRecord]⟩) ∧
    ∃ s v, (symbolRequest "aapl").params.lookup "symbol" = some s ∧
      aaplServer.stockData.lookup (toUpperCase asciiOnly s) = some v ∧
      [aaplRecord] = [v] :=
  ⟨rfl, (getStockBySymbol_own_property asciiOnly).2.2.2 aaplServer (symbolRequest "aapl")
    (aaplServer, ⟨200, [aaplRecord]⟩) rfl rfl⟩

end StockServer
